import Mathlib

/-!
Verification of the `speak` queueing daemon
(`src/claude/skills/speaking/src/speak/__main__.py`).

The daemon is a worker process with four kinds of logical threads:
a socket listener with a counting admission gate, per-connection
handlers, a generator thread (synthesis) and a player thread
(playback), connected by a request queue (`msg_queue`) and a bounded
playback buffer (`audio_buffer`, capacity 3).  Clients start the
worker under an exclusive file lock and submit requests over a Unix
socket with bounded retries.

This file embeds those pieces as explicit transition systems and pure
functions over oracles (synthesis outcome, JSON parse outcome,
connection outcome), and proves or refutes the specification claims
about ordering, bounds, single-instance startup, error handling and
shutdown draining.
-/

namespace Speak

/-- A queued text-to-speech request, as decoded from the JSON wire
message `{"text":…, "voice":…, "speed":…, "lang":…}`.  The numeric
speed never influences control flow, so it is modelled as a `Nat`. -/
structure Msg where
  text : String
  voice : String
  speed : Nat
  lang : String
deriving DecidableEq, Repr

/-- Program counter of the generator thread (`generator_thread`):
`check` is the `while not shutdown_event.is_set()` guard, `waiting` is
inside `msg_queue.get(timeout=1)` after the guard passed, `gotMsg x`
holds a popped queue entry (`none` is the shutdown sentinel), `done`
means the loop was left. -/
inductive GenPC where
  | check
  | waiting
  | gotMsg (x : Option Msg)
  | done
deriving DecidableEq, Repr

/-- Program counter of the player thread (`player_thread`), with the
same loop shape as the generator; `gotItem` holds a popped buffer item
`(bytes?, label)` where `none` bytes are the shutdown sentinel. -/
inductive PlayPC where
  | check
  | waiting
  | gotItem (x : Option (List Nat) × String)
  | done
deriving DecidableEq, Repr

/-- State of the worker pipeline: the request queue and playback
buffer (FIFO lists, head = oldest), the `shutdown_event` flag, the two
stage program counters, and three history traces used to state
ordering properties: all messages ever enqueued, all messages popped
by the generator, and all chunks passed to `play_audio`. -/
structure WState where
  msgQueue : List (Option Msg)
  audioBuffer : List (Option (List Nat) × String)
  shutdown : Bool
  genPC : GenPC
  playPC : PlayPC
  enqueued : List Msg
  consumed : List Msg
  played : List (List Nat)
deriving Repr

/-- Initial worker state: empty queues, shutdown not signalled, both
stage loops at their guard. -/
def WState.init : WState :=
  { msgQueue := [], audioBuffer := [], shutdown := false,
    genPC := .check, playPC := .check,
    enqueued := [], consumed := [], played := [] }

/-- One scheduler step of the worker pipeline.  `gen` is the synthesis
collaborator (`generate_audio`): `some bytes` on success, `none` when
synthesis raises (the generator logs and continues).  Constructors
mirror the source lines of `worker_process`:
connection handlers appending to `msg_queue` (`enqueue`), the signal
handler / idle-timeout path setting `shutdown_event` then putting the
`None` sentinel (`signalShutdown`), and the generator/player loops
with their guard, timeout, pop, synthesis and playback actions.
Pushes onto the playback buffer block while it holds 3 items, hence
the `length < 3` guards. -/
inductive WStep (gen : Msg → Option (List Nat)) : WState → WState → Prop
  | enqueue (s : WState) (m : Msg) :
      WStep gen s { s with msgQueue := s.msgQueue ++ [some m],
                           enqueued := s.enqueued ++ [m] }
  | signalShutdown (s : WState) :
      WStep gen s { s with shutdown := true, msgQueue := s.msgQueue ++ [none] }
  | genGuardPass (s : WState) (h : s.genPC = .check) (hs : s.shutdown = false) :
      WStep gen s { s with genPC := .waiting }
  | genGuardExit (s : WState) (h : s.genPC = .check) (hs : s.shutdown = true) :
      WStep gen s { s with genPC := .done }
  | genTimeout (s : WState) (h : s.genPC = .waiting) (hq : s.msgQueue = []) :
      WStep gen s { s with genPC := .check }
  | genPop (s : WState) (x : Option Msg) (q : List (Option Msg))
      (h : s.genPC = .waiting) (hq : s.msgQueue = x :: q) :
      WStep gen s { s with msgQueue := q, genPC := .gotMsg x,
                           consumed := s.consumed ++ x.toList }
  | genSentinelFwd (s : WState) (h : s.genPC = .gotMsg none)
      (hb : s.audioBuffer.length < 3) :
      WStep gen s { s with audioBuffer := s.audioBuffer ++ [(none, "")],
                           genPC := .done }
  | genSynthOk (s : WState) (m : Msg) (b : List Nat)
      (h : s.genPC = .gotMsg (some m)) (hg : gen m = some b)
      (hb : s.audioBuffer.length < 3) :
      WStep gen s { s with audioBuffer := s.audioBuffer ++ [(some b, m.text)],
                           genPC := .check }
  | genSynthErr (s : WState) (m : Msg)
      (h : s.genPC = .gotMsg (some m)) (hg : gen m = none) :
      WStep gen s { s with genPC := .check }
  | playGuardPass (s : WState) (h : s.playPC = .check) (hs : s.shutdown = false) :
      WStep gen s { s with playPC := .waiting }
  | playGuardExit (s : WState) (h : s.playPC = .check) (hs : s.shutdown = true) :
      WStep gen s { s with playPC := .done }
  | playTimeout (s : WState) (h : s.playPC = .waiting) (hb : s.audioBuffer = []) :
      WStep gen s { s with playPC := .check }
  | playPop (s : WState) (x : Option (List Nat) × String)
      (r : List (Option (List Nat) × String))
      (h : s.playPC = .waiting) (hb : s.audioBuffer = x :: r) :
      WStep gen s { s with audioBuffer := r, playPC := .gotItem x }
  | playSentinel (s : WState) (lbl : String)
      (h : s.playPC = .gotItem (none, lbl)) :
      WStep gen s { s with playPC := .done }
  | playChunk (s : WState) (b : List Nat) (lbl : String)
      (h : s.playPC = .gotItem (some b, lbl)) :
      WStep gen s { s with played := s.played ++ [b], playPC := .check }

/-- Reachability of worker pipeline states from the initial state
under an arbitrary interleaving of the threads. -/
inductive WReach (gen : Msg → Option (List Nat)) : WState → Prop
  | init : WReach gen WState.init
  | step {s t : WState} : WReach gen s → WStep gen s t → WReach gen t

/-- Synthesised bytes held by the generator between popping a message
and pushing the resulting chunk. -/
def genPending (gen : Msg → Option (List Nat)) : GenPC → List (List Nat)
  | .gotMsg (some m) => (gen m).toList
  | _ => []

/-- Chunk held by the player between popping it and invoking
`play_audio` on it. -/
def playPending : PlayPC → List (List Nat)
  | .gotItem (some b, _) => [b]
  | _ => []

/-- The audio chunks (non-sentinel entries) of the playback buffer. -/
def bufBytes (buf : List (Option (List Nat) × String)) : List (List Nat) :=
  buf.filterMap (fun i => i.1)

/-- Inductive invariant of the worker pipeline: the play trace,
followed by the in-flight and buffered chunks, is exactly the
synthesis output of the consumed messages in order; the consumed
messages followed by the queued ones are exactly the enqueued messages
in order; and the playback buffer never holds more than 3 items. -/
def PipelineInv (gen : Msg → Option (List Nat)) (s : WState) : Prop :=
  s.played ++ playPending s.playPC ++ bufBytes s.audioBuffer
      ++ genPending gen s.genPC = List.filterMap gen s.consumed
  ∧ s.consumed ++ s.msgQueue.filterMap id = s.enqueued
  ∧ s.audioBuffer.length ≤ 3

theorem pipelineInv_init (gen : Msg → Option (List Nat)) :
    PipelineInv gen WState.init := by
  refine ⟨rfl, rfl, ?_⟩
  simp [WState.init]

theorem pipelineInv_step {gen : Msg → Option (List Nat)} {s t : WState}
    (hinv : PipelineInv gen s) (hst : WStep gen s t) : PipelineInv gen t := by
  obtain ⟨h1, h2, h3⟩ := hinv
  cases hst with
  | enqueue m =>
      refine ⟨h1, ?_, h3⟩
      simp only [List.filterMap_append, ← List.append_assoc, h2]
      simp
  | signalShutdown =>
      refine ⟨h1, ?_, h3⟩
      simp only [List.filterMap_append, ← List.append_assoc, h2]
      simp
  | genGuardPass h hs =>
      refine ⟨?_, h2, h3⟩
      simpa [genPending, h] using h1
  | genGuardExit h hs =>
      refine ⟨?_, h2, h3⟩
      simpa [genPending, h] using h1
  | genTimeout h hq =>
      refine ⟨?_, h2, h3⟩
      simpa [genPending, h] using h1
  | genPop x q h hq =>
      refine ⟨?_, ?_, h3⟩
      · cases x with
        | none =>
            simpa [genPending, h] using h1
        | some m =>
            cases hgm : gen m with
            | none =>
                simp only [genPending, h, hgm, Option.toList, List.append_nil] at h1
                simp [genPending, hgm, List.filterMap_append, h1, Option.toList]
            | some b =>
                simp only [genPending, h, hgm, Option.toList, List.append_nil] at h1
                simp only [genPending, hgm, Option.toList, List.filterMap_append]
                rw [← h1]
                simp [List.filterMap_cons, hgm, List.append_assoc]
      · rw [hq] at h2
        cases x with
        | none => simpa using h2
        | some m =>
            simp only [Option.toList, List.append_assoc]
            simpa [List.filterMap_cons, ← List.append_assoc] using h2
  | genSentinelFwd h hb =>
      refine ⟨?_, h2, by simpa using Nat.succ_le_of_lt hb⟩
      simpa [genPending, bufBytes, h, List.filterMap_append] using h1
  | genSynthOk m b h hg hb =>
      refine ⟨?_, h2, by simpa using Nat.succ_le_of_lt hb⟩
      simp only [genPending, h, hg, Option.toList] at h1
      simp only [genPending, bufBytes, List.filterMap_append, List.filterMap_cons]
      simpa [bufBytes, ← List.append_assoc] using h1
  | genSynthErr m h hg =>
      refine ⟨?_, h2, h3⟩
      simpa [genPending, h, hg] using h1
  | playGuardPass h hs =>
      refine ⟨?_, h2, h3⟩
      simpa [playPending, h] using h1
  | playGuardExit h hs =>
      refine ⟨?_, h2, h3⟩
      simpa [playPending, h] using h1
  | playTimeout h hb =>
      refine ⟨?_, h2, h3⟩
      simpa [playPending, h] using h1
  | playPop x r h hb =>
      refine ⟨?_, h2, ?_⟩
      · obtain ⟨ob, lbl⟩ := x
        cases ob with
        | none =>
            simpa [playPending, bufBytes, h, hb, List.filterMap_cons] using h1
        | some b =>
            simp only [playPending, h, hb, bufBytes, List.filterMap_cons] at h1 ⊢
            simpa using h1
      · rw [hb] at h3
        simp only [List.length_cons] at h3
        show r.length ≤ 3
        omega
  | playSentinel lbl h =>
      refine ⟨?_, h2, h3⟩
      simpa [playPending, h] using h1
  | playChunk b lbl h =>
      refine ⟨?_, h2, h3⟩
      simp only [playPending, h] at h1
      simpa [playPending, ← List.append_assoc] using h1

theorem pipelineInv_reach {gen : Msg → Option (List Nat)} {s : WState}
    (h : WReach gen s) : PipelineInv gen s := by
  induction h with
  | init => exact pipelineInv_init gen
  | step _ hst ih => exact pipelineInv_step ih hst

/-- Sample message used to exercise the pipeline on concrete runs. -/
def m1 : Msg := { text := "hello", voice := "am_echo", speed := 1, lang := "en-us" }

/-- Second sample message. -/
def m2 : Msg := { text := "world", voice := "am_echo", speed := 1, lang := "en-us" }

/-- Sample synthesis collaborator: every message synthesises to a
one-sample chunk holding the text length. -/
def gen0 : Msg → Option (List Nat) := fun m => some [m.text.length]

/-- Pipeline state after `m1` was enqueued, popped and synthesised:
its chunk sits in the playback buffer. -/
def wMid : WState :=
  { msgQueue := [], audioBuffer := [(some [5], "hello")], shutdown := false,
    genPC := .check, playPC := .check,
    enqueued := [m1], consumed := [m1], played := [] }

theorem wMid_reach : WReach gen0 wMid := by
  have h1 := WReach.step (WReach.init : WReach gen0 WState.init) (WStep.enqueue _ m1)
  have h2 := WReach.step h1 (WStep.genGuardPass _ rfl rfl)
  have h3 := WReach.step h2 (WStep.genPop _ (some m1) [] rfl rfl)
  exact WReach.step h3 (WStep.genSynthOk _ m1 [5] rfl rfl (by decide))

/-- Pipeline state after the chunk of `m1` was also popped and played. -/
def wExample : WState :=
  { msgQueue := [], audioBuffer := [], shutdown := false,
    genPC := .check, playPC := .check,
    enqueued := [m1], consumed := [m1], played := [[5]] }

theorem wExample_reach : WReach gen0 wExample := by
  have h5 := WReach.step wMid_reach (WStep.playGuardPass _ rfl rfl)
  have h6 := WReach.step h5 (WStep.playPop _ (some [5], "hello") [] rfl rfl)
  exact WReach.step h6 (WStep.playChunk _ [5] "hello" rfl)

/-- C1: in every reachable state of the worker pipeline, the sequence
of chunks passed to the playback collaborator (`play_audio`) is a
prefix of the synthesis outputs of the enqueued messages taken in
enqueue order.  Hence playback happens in exactly the FIFO order of
submission — no two chunks are ever reordered between enqueue and
playback, for any interleaving (i.e. any synthesis durations). -/
theorem player_fifo_order (gen : Msg → Option (List Nat)) (s : WState)
    (h : WReach gen s) :
    ∃ rest, s.played ++ rest = List.filterMap gen s.enqueued := by
  obtain ⟨h1, h2, _⟩ := pipelineInv_reach h
  refine ⟨playPending s.playPC ++ bufBytes s.audioBuffer ++ genPending gen s.genPC
      ++ List.filterMap gen (s.msgQueue.filterMap id), ?_⟩
  rw [← h2, List.filterMap_append, ← h1]
  simp [List.append_assoc]

theorem player_fifo_order_witness :
    ∃ rest, [[5]] ++ rest = List.filterMap gen0 [m1] := by
  have h := player_fifo_order gen0 wExample wExample_reach
  simpa [wExample] using h

/-- C3: in every reachable state of the worker pipeline the playback
buffer (`audio_buffer`, a queue of capacity 3) holds at most 3 items;
the generator's push steps are only enabled below that bound,
modelling the blocking `audio_buffer.put`. -/
theorem audio_buffer_bounded (gen : Msg → Option (List Nat)) (s : WState)
    (h : WReach gen s) : s.audioBuffer.length ≤ 3 :=
  (pipelineInv_reach h).2.2

theorem audio_buffer_bounded_witness : wMid.audioBuffer.length ≤ 3 :=
  audio_buffer_bounded gen0 wMid wMid_reach

/-- Pipeline state reached by enqueueing `m1`, `m2` and then
initiating shutdown (flag set, sentinel appended), after which the
generator observes the flag at its loop guard and exits. -/
def wAbandon : WState :=
  { msgQueue := [some m1, some m2, none], audioBuffer := [], shutdown := true,
    genPC := .done, playPC := .check,
    enqueued := [m1, m2], consumed := [], played := [] }

/-- C9 counterexample: shutdown is initiated while two messages sit in
the request queue ahead of the injected sentinel, and the generator
stage exits (its `while not shutdown_event.is_set()` guard fails)
without ever generating them: the reachable state `wAbandon` has
`genPC = done` with both messages still queued and nothing consumed or
played.  This refutes the claim that every message ahead of the
sentinel is still generated before the stage exits. -/
theorem shutdown_abandons_pending_cex :
    WReach gen0 wAbandon ∧ wAbandon.msgQueue = [some m1, some m2, none] ∧
    wAbandon.shutdown = true ∧ wAbandon.genPC = GenPC.done ∧
    wAbandon.consumed = [] ∧ wAbandon.played = [] := by
  refine ⟨?_, rfl, rfl, rfl, rfl, rfl⟩
  have h1 := WReach.step (WReach.init : WReach gen0 WState.init) (WStep.enqueue _ m1)
  have h2 := WReach.step h1 (WStep.enqueue _ m2)
  have h3 := WReach.step h2 (WStep.signalShutdown _)
  exact WReach.step h3 (WStep.genGuardExit _ rfl rfl)

/-- Reflexive-transitive closure of worker pipeline steps, used to
describe what can still happen from a given state onwards. -/
def WReachFrom (gen : Msg → Option (List Nat)) : WState → WState → Prop :=
  Relation.ReflTransGen (WStep gen)

/-- C9 amended: once the shutdown flag is set and the generator and
player threads are at their loop guards, the stages never consume or
play anything further — each loop can only exit.  Work still pending
in the request queue or playback buffer is abandoned; the sentinel
merely unblocks a stage waiting on an empty queue, it does not force a
drain. -/
theorem shutdown_exit_frozen (gen : Msg → Option (List Nat)) (s t : WState)
    (hst : WReachFrom gen s t) (hs : s.shutdown = true)
    (hg : s.genPC = GenPC.check) (hp : s.playPC = PlayPC.check) :
    t.consumed = s.consumed ∧ t.played = s.played ∧
    (t.genPC = GenPC.check ∨ t.genPC = GenPC.done) ∧
    (t.playPC = PlayPC.check ∨ t.playPC = PlayPC.done) := by
  have key : t.shutdown = true ∧ (t.genPC = GenPC.check ∨ t.genPC = GenPC.done)
      ∧ (t.playPC = PlayPC.check ∨ t.playPC = PlayPC.done)
      ∧ t.consumed = s.consumed ∧ t.played = s.played := by
    induction hst with
    | refl => exact ⟨hs, Or.inl hg, Or.inl hp, rfl, rfl⟩
    | tail hab hbc ih =>
        obtain ⟨ih1, ih2, ih3, ih4, ih5⟩ := ih
        cases hbc with
        | enqueue m => exact ⟨ih1, ih2, ih3, ih4, ih5⟩
        | signalShutdown => exact ⟨rfl, ih2, ih3, ih4, ih5⟩
        | genGuardPass h hs' => rw [ih1] at hs'; cases hs'
        | genGuardExit h hs' => exact ⟨ih1, Or.inr rfl, ih3, ih4, ih5⟩
        | genTimeout h hq => rw [h] at ih2; rcases ih2 with h2 | h2 <;> cases h2
        | genPop x q h hq => rw [h] at ih2; rcases ih2 with h2 | h2 <;> cases h2
        | genSentinelFwd h hb => rw [h] at ih2; rcases ih2 with h2 | h2 <;> cases h2
        | genSynthOk m b h hg' hb => rw [h] at ih2; rcases ih2 with h2 | h2 <;> cases h2
        | genSynthErr m h hg' => rw [h] at ih2; rcases ih2 with h2 | h2 <;> cases h2
        | playGuardPass h hs' => rw [ih1] at hs'; cases hs'
        | playGuardExit h hs' => exact ⟨ih1, ih2, Or.inr rfl, ih4, ih5⟩
        | playTimeout h hb => rw [h] at ih3; rcases ih3 with h3 | h3 <;> cases h3
        | playPop x r h hb => rw [h] at ih3; rcases ih3 with h3 | h3 <;> cases h3
        | playSentinel lbl h => rw [h] at ih3; rcases ih3 with h3 | h3 <;> cases h3
        | playChunk b lbl h => rw [h] at ih3; rcases ih3 with h3 | h3 <;> cases h3
  exact ⟨key.2.2.2.1, key.2.2.2.2, key.2.1, key.2.2.1⟩

/-- State with the shutdown flag freshly set and the sentinel queued. -/
def wShut : WState := { WState.init with shutdown := true, msgQueue := [none] }

theorem shutdown_exit_frozen_witness :
    ({ wShut with genPC := GenPC.done } : WState).consumed = wShut.consumed ∧
    ({ wShut with genPC := GenPC.done } : WState).played = wShut.played ∧
    (({ wShut with genPC := GenPC.done } : WState).genPC = GenPC.check ∨
      ({ wShut with genPC := GenPC.done } : WState).genPC = GenPC.done) ∧
    (({ wShut with genPC := GenPC.done } : WState).playPC = PlayPC.check ∨
      ({ wShut with genPC := GenPC.done } : WState).playPC = PlayPC.done) :=
  shutdown_exit_frozen gen0 wShut _
    (Relation.ReflTransGen.single (WStep.genGuardExit _ rfl rfl)) rfl rfl rfl

/-- Listener thread state in the bind-failure scenario: `binding`
means `socket_listener` is about to call `sock.bind` (which raises),
`doneL` means the exception propagated, the `finally` block closed the
socket and removed the socket file, and the thread died. -/
inductive LPC where
  | binding
  | doneL
deriving DecidableEq, Repr

/-- Main thread of `worker_process` after starting the three threads:
it joins the socket listener, then the generator, then the player, and
only then runs `cleanup_worker()` (which removes the PID and socket
files) and returns. -/
inductive MPC where
  | joinSock
  | joinGen
  | joinPlay
  | cleanup
  | exited
deriving DecidableEq, Repr

/-- State of the whole daemon process when its socket bind fails: the
pipeline pieces plus the listener thread, the joining main thread, and
whether the PID file written by `start_worker` is still on disk.  No
external signal is delivered (the claim concerns the daemon exiting by
itself), so no `signalShutdown`-like step exists and no connection
handler can enqueue (the listener never accepted). -/
structure DState where
  msgQueue : List (Option Msg)
  audioBuffer : List (Option (List Nat) × String)
  shutdown : Bool
  genPC : GenPC
  playPC : PlayPC
  lpc : LPC
  mpc : MPC
  pidFile : Bool
  socketFileRemoved : Bool
deriving Repr

/-- Daemon state right after `start_worker` spawned it against an
unbindable socket path: PID file written, threads started, listener
about to fail its bind. -/
def DState.init : DState :=
  { msgQueue := [], audioBuffer := [], shutdown := false,
    genPC := .check, playPC := .check, lpc := .binding, mpc := .joinSock,
    pidFile := true, socketFileRemoved := false }

/-- Steps of the daemon in the bind-failure scenario.  The listener's
bind raises: no `except` clause exists in `socket_listener`, so the
exception kills the thread after the `finally` block (close socket,
unlink socket file); in particular `shutdown_event` is never set and
no sentinel is ever enqueued.  The generator and player loops run
exactly as in `WStep` (their pops are never enabled: both queues stay
empty).  The main thread joins the three threads in order and runs
`cleanup_worker` only after all three finish. -/
inductive DStep (gen : Msg → Option (List Nat)) : DState → DState → Prop
  | bindFail (d : DState) (h : d.lpc = .binding) :
      DStep gen d { d with lpc := .doneL, socketFileRemoved := true }
  | genGuardPass (d : DState) (h : d.genPC = .check) (hs : d.shutdown = false) :
      DStep gen d { d with genPC := .waiting }
  | genGuardExit (d : DState) (h : d.genPC = .check) (hs : d.shutdown = true) :
      DStep gen d { d with genPC := .done }
  | genTimeout (d : DState) (h : d.genPC = .waiting) (hq : d.msgQueue = []) :
      DStep gen d { d with genPC := .check }
  | genPop (d : DState) (x : Option Msg) (q : List (Option Msg))
      (h : d.genPC = .waiting) (hq : d.msgQueue = x :: q) :
      DStep gen d { d with msgQueue := q, genPC := .gotMsg x }
  | genSentinelFwd (d : DState) (h : d.genPC = .gotMsg none)
      (hb : d.audioBuffer.length < 3) :
      DStep gen d { d with audioBuffer := d.audioBuffer ++ [(none, "")],
                           genPC := .done }
  | genSynthOk (d : DState) (m : Msg) (b : List Nat)
      (h : d.genPC = .gotMsg (some m)) (hg : gen m = some b)
      (hb : d.audioBuffer.length < 3) :
      DStep gen d { d with audioBuffer := d.audioBuffer ++ [(some b, m.text)],
                           genPC := .check }
  | genSynthErr (d : DState) (m : Msg)
      (h : d.genPC = .gotMsg (some m)) (hg : gen m = none) :
      DStep gen d { d with genPC := .check }
  | playGuardPass (d : DState) (h : d.playPC = .check) (hs : d.shutdown = false) :
      DStep gen d { d with playPC := .waiting }
  | playGuardExit (d : DState) (h : d.playPC = .check) (hs : d.shutdown = true) :
      DStep gen d { d with playPC := .done }
  | playTimeout (d : DState) (h : d.playPC = .waiting) (hb : d.audioBuffer = []) :
      DStep gen d { d with playPC := .check }
  | playPop (d : DState) (x : Option (List Nat) × String)
      (r : List (Option (List Nat) × String))
      (h : d.playPC = .waiting) (hb : d.audioBuffer = x :: r) :
      DStep gen d { d with audioBuffer := r, playPC := .gotItem x }
  | playSentinel (d : DState) (lbl : String)
      (h : d.playPC = .gotItem (none, lbl)) :
      DStep gen d { d with playPC := .done }
  | playChunk (d : DState) (b : List Nat) (lbl : String)
      (h : d.playPC = .gotItem (some b, lbl)) :
      DStep gen d { d with playPC := .check }
  | joinSock (d : DState) (h : d.mpc = .joinSock) (hl : d.lpc = .doneL) :
      DStep gen d { d with mpc := .joinGen }
  | joinGen (d : DState) (h : d.mpc = .joinGen) (hg : d.genPC = .done) :
      DStep gen d { d with mpc := .joinPlay }
  | joinPlay (d : DState) (h : d.mpc = .joinPlay) (hp : d.playPC = .done) :
      DStep gen d { d with mpc := .cleanup }
  | doCleanup (d : DState) (h : d.mpc = .cleanup) :
      DStep gen d { d with pidFile := false, socketFileRemoved := true,
                           mpc := .exited }

/-- Reachability of daemon states from the bind-failure start. -/
inductive DReach (gen : Msg → Option (List Nat)) : DState → Prop
  | init : DReach gen DState.init
  | step {s t : DState} : DReach gen s → DStep gen s t → DReach gen t

/-- Inductive invariant of the bind-failure scenario: the shutdown
flag is never set, both queues stay empty, the generator and player
never leave their guard/wait cycle, the main thread never gets past
joining the generator, and the PID file persists. -/
def WedgeInv (d : DState) : Prop :=
  d.shutdown = false ∧ d.msgQueue = [] ∧ d.audioBuffer = []
  ∧ (d.genPC = GenPC.check ∨ d.genPC = GenPC.waiting)
  ∧ (d.playPC = PlayPC.check ∨ d.playPC = PlayPC.waiting)
  ∧ (d.mpc = MPC.joinSock ∨ d.mpc = MPC.joinGen)
  ∧ d.pidFile = true

theorem wedgeInv_step {gen : Msg → Option (List Nat)} {s t : DState}
    (hinv : WedgeInv s) (hst : DStep gen s t) : WedgeInv t := by
  obtain ⟨h1, h2, h3, h4, h5, h6, h7⟩ := hinv
  cases hst with
  | bindFail h => exact ⟨h1, h2, h3, h4, h5, h6, h7⟩
  | genGuardPass h hs => exact ⟨h1, h2, h3, Or.inr rfl, h5, h6, h7⟩
  | genGuardExit h hs => rw [h1] at hs; cases hs
  | genTimeout h hq => exact ⟨h1, h2, h3, Or.inl rfl, h5, h6, h7⟩
  | genPop x q h hq => rw [h2] at hq; cases hq
  | genSentinelFwd h hb => rw [h] at h4; rcases h4 with h4 | h4 <;> cases h4
  | genSynthOk m b h hg hb => rw [h] at h4; rcases h4 with h4 | h4 <;> cases h4
  | genSynthErr m h hg => rw [h] at h4; rcases h4 with h4 | h4 <;> cases h4
  | playGuardPass h hs => exact ⟨h1, h2, h3, h4, Or.inr rfl, h6, h7⟩
  | playGuardExit h hs => rw [h1] at hs; cases hs
  | playTimeout h hb => exact ⟨h1, h2, h3, h4, Or.inl rfl, h6, h7⟩
  | playPop x r h hb => rw [h3] at hb; cases hb
  | playSentinel lbl h => rw [h] at h5; rcases h5 with h5 | h5 <;> cases h5
  | playChunk b lbl h => rw [h] at h5; rcases h5 with h5 | h5 <;> cases h5
  | joinSock h hl => exact ⟨h1, h2, h3, h4, h5, Or.inr rfl, h7⟩
  | joinGen h hg => rw [hg] at h4; rcases h4 with h4 | h4 <;> cases h4
  | joinPlay h hp => rcases h6 with h6 | h6 <;> rw [h] at h6 <;> cases h6
  | doCleanup h => rcases h6 with h6 | h6 <;> rw [h] at h6 <;> cases h6

/-- C8 divergence theorem: after a bind failure (and absent external
signals), in every reachable daemon state the PID file still exists
and the daemon has neither run `cleanup_worker` nor exited — the
process wedges in `gen_thread.join()` while the generator and player
spin on their empty queues, instead of exiting and clearing the PID
file as the specification requires. -/
theorem bind_failure_daemon_wedges (gen : Msg → Option (List Nat))
    (d : DState) (h : DReach gen d) :
    d.pidFile = true ∧ d.mpc ≠ MPC.cleanup ∧ d.mpc ≠ MPC.exited := by
  have hinv : WedgeInv d := by
    induction h with
    | init => exact ⟨rfl, rfl, rfl, Or.inl rfl, Or.inl rfl, Or.inl rfl, rfl⟩
    | step _ hst ih => exact wedgeInv_step ih hst
  obtain ⟨-, -, -, -, -, h6, h7⟩ := hinv
  refine ⟨h7, ?_, ?_⟩ <;> rcases h6 with h6 | h6 <;> simp [h6]

theorem bind_failure_daemon_wedges_witness :
    DState.init.pidFile = true ∧ DState.init.mpc ≠ MPC.cleanup ∧
    DState.init.mpc ≠ MPC.exited :=
  bind_failure_daemon_wedges gen0 DState.init DReach.init

/-- Reply tokens of the wire protocol: `OK`, `ERROR`, `BUSY`. -/
inductive Reply where
  | ok
  | error
  | busy
deriving DecidableEq, Repr

/-- Outcome of the `conn.recv` loop in `handle_connection`: either the
full payload (the concatenation of chunks until the peer closed its
write side), or an exception raised while receiving. -/
inductive RecvOutcome where
  | ok (data : List Nat)
  | raises
deriving DecidableEq, Repr

/-- Observable effects of one run of `handle_connection`: which reply
token was actually delivered (if any), the messages put on
`msg_queue`, whether `last_activity` was updated, whether the
connection was closed, whether the admission-gate slot was released
(`connection_semaphore.release()`), and whether an exception
propagated out of the handler. -/
structure ConnResult where
  replySent : Option Reply
  enqueued : List Msg
  activityUpdated : Bool
  closed : Bool
  released : Bool
  raised : Bool
deriving DecidableEq, Repr

/-- Coarse embedding of `handle_connection`.  `parse` is the
`json.loads`-then-decode collaborator: `some m` when the payload
parses, `none` when `json.JSONDecodeError` is raised.  `sendOk` is
whether `conn.sendall` succeeds; when it raises, the exception
propagates out of the `try` (only `JSONDecodeError` is caught).  The
`finally` block closes the connection and releases the semaphore slot
on every path.  This model does not distinguish the
`data.decode('utf-8')` step failing with `UnicodeDecodeError` (a path
on which the source sends no reply at all); `handle_connection_dec`
refines it with that path made explicit, and
`handle_connection_dec_agrees` shows this definition is its
restriction to payloads that decode. -/
def handle_connection (parse : List Nat → Option Msg) (recv : RecvOutcome)
    (sendOk : Bool) : ConnResult :=
  let body : ConnResult :=
    match recv with
    | .raises =>
        { replySent := none, enqueued := [], activityUpdated := false,
          closed := false, released := false, raised := true }
    | .ok data =>
        if data.isEmpty then
          { replySent := none, enqueued := [], activityUpdated := false,
            closed := false, released := false, raised := false }
        else
          match parse data with
          | some m =>
              if sendOk then
                { replySent := some .ok, enqueued := [m], activityUpdated := true,
                  closed := false, released := false, raised := false }
              else
                { replySent := none, enqueued := [m], activityUpdated := true,
                  closed := false, released := false, raised := true }
          | none =>
              if sendOk then
                { replySent := some .error, enqueued := [], activityUpdated := false,
                  closed := false, released := false, raised := false }
              else
                { replySent := none, enqueued := [], activityUpdated := false,
                  closed := false, released := false, raised := true }
  { body with closed := true, released := true }

/-- Outcome of `json.loads(data.decode('utf-8'))` on a non-empty
payload: `decodeErr` when `data.decode('utf-8')` raises
`UnicodeDecodeError` (the bytes are not valid UTF-8); `jsonErr` when
the decoded text raises `json.JSONDecodeError`; `ok m` when it parses
to a message. -/
inductive ParseOutcome where
  | decodeErr
  | jsonErr
  | ok (m : Msg)
deriving DecidableEq, Repr

/-- Refined embedding of `handle_connection` with the UTF-8 decode
step made explicit.  The inner `except` clause catches only
`json.JSONDecodeError`, so a `UnicodeDecodeError` raised by
`data.decode('utf-8')` sends no reply token and propagates out of the
handler; the `finally` block still closes the connection and releases
the admission slot on that path too. -/
def handle_connection_dec (parse : List Nat → ParseOutcome)
    (recv : RecvOutcome) (sendOk : Bool) : ConnResult :=
  let body : ConnResult :=
    match recv with
    | .raises =>
        { replySent := none, enqueued := [], activityUpdated := false,
          closed := false, released := false, raised := true }
    | .ok data =>
        if data.isEmpty then
          { replySent := none, enqueued := [], activityUpdated := false,
            closed := false, released := false, raised := false }
        else
          match parse data with
          | .decodeErr =>
              { replySent := none, enqueued := [], activityUpdated := false,
                closed := false, released := false, raised := true }
          | .ok m =>
              if sendOk then
                { replySent := some .ok, enqueued := [m], activityUpdated := true,
                  closed := false, released := false, raised := false }
              else
                { replySent := none, enqueued := [m], activityUpdated := true,
                  closed := false, released := false, raised := true }
          | .jsonErr =>
              if sendOk then
                { replySent := some .error, enqueued := [], activityUpdated := false,
                  closed := false, released := false, raised := false }
              else
                { replySent := none, enqueued := [], activityUpdated := false,
                  closed := false, released := false, raised := true }
  { body with closed := true, released := true }

theorem handle_connection_dec_agrees (p : List Nat → Option Msg)
    (recv : RecvOutcome) (sendOk : Bool) :
    handle_connection_dec
      (fun d => match p d with
                | some m => ParseOutcome.ok m
                | none => ParseOutcome.jsonErr)
      recv sendOk = handle_connection p recv sendOk := by
  cases recv with
  | raises => rfl
  | ok data =>
      by_cases hd : data.isEmpty
      · simp [handle_connection_dec, handle_connection, hd]
      · cases hp : p data <;>
          simp [handle_connection_dec, handle_connection, hd, hp]

/-- Concrete decode/parse collaborator: payload `[1]` decodes and
parses to `m1`; payload `[255]` is the single byte `0xFF`, which never
occurs in valid UTF-8, so decoding raises `UnicodeDecodeError`; any
other payload decodes but is malformed JSON. -/
def parse1 : List Nat → ParseOutcome :=
  fun d => if d = [1] then .ok m1 else if d = [255] then .decodeErr else .jsonErr

/-- C7 counterexample: the non-empty payload `[255]` (the byte `0xFF`,
never valid UTF-8) fails to parse as a single JSON message, yet the
handler sends no `ERROR` token: `json.loads(data.decode('utf-8'))`
raises `UnicodeDecodeError`, which `except json.JSONDecodeError` does
not catch, so the exception propagates with no reply (nothing is
enqueued; the `finally` still closes and releases).  This refutes the
claim that every connection with a non-empty unparseable payload is
answered with `ERROR`. -/
theorem non_utf8_no_error_reply_cex :
    handle_connection_dec parse1 (.ok [255]) true =
      { replySent := none, enqueued := [], activityUpdated := false,
        closed := true, released := true, raised := true } ∧
    (none : Option Reply) ≠ some Reply.error := by
  exact ⟨by decide, by decide⟩

/-- C7 amended: for a connection with a non-empty payload and a
working reply channel, the handler replies `ERROR`, closes, and
enqueues nothing when the payload decodes as UTF-8 but fails JSON
parsing; sends no reply token at all when the payload is not valid
UTF-8 — the `UnicodeDecodeError` propagates, with nothing enqueued and
the connection still closed and its slot released; and enqueues
exactly one message, updates the last-activity timestamp, replies
`OK` and closes when the payload decodes and parses. -/
theorem handle_connection_decode_parse_contract
    (parse : List Nat → ParseOutcome) (data : List Nat) (hne : data ≠ []) :
    (parse data = ParseOutcome.jsonErr →
      handle_connection_dec parse (.ok data) true =
        { replySent := some Reply.error, enqueued := [], activityUpdated := false,
          closed := true, released := true, raised := false }) ∧
    (parse data = ParseOutcome.decodeErr →
      handle_connection_dec parse (.ok data) true =
        { replySent := none, enqueued := [], activityUpdated := false,
          closed := true, released := true, raised := true }) ∧
    (∀ m, parse data = ParseOutcome.ok m →
      handle_connection_dec parse (.ok data) true =
        { replySent := some Reply.ok, enqueued := [m], activityUpdated := true,
          closed := true, released := true, raised := false }) := by
  refine ⟨?_, ?_, ?_⟩
  · intro hp
    simp [handle_connection_dec, List.isEmpty_iff, hne, hp]
  · intro hp
    simp [handle_connection_dec, List.isEmpty_iff, hne, hp]
  · intro m hp
    simp [handle_connection_dec, List.isEmpty_iff, hne, hp]

theorem handle_connection_decode_parse_contract_witness :
    handle_connection_dec parse1 (.ok [1]) true =
      { replySent := some Reply.ok, enqueued := [m1], activityUpdated := true,
        closed := true, released := true, raised := false } ∧
    handle_connection_dec parse1 (.ok [2]) true =
      { replySent := some Reply.error, enqueued := [], activityUpdated := false,
        closed := true, released := true, raised := false } ∧
    handle_connection_dec parse1 (.ok [255]) true =
      { replySent := none, enqueued := [], activityUpdated := false,
        closed := true, released := true, raised := true } :=
  ⟨(handle_connection_decode_parse_contract parse1 [1] (by decide)).2.2 m1 (by decide),
   (handle_connection_decode_parse_contract parse1 [2] (by decide)).1 (by decide),
   (handle_connection_decode_parse_contract parse1 [255] (by decide)).2.1 (by decide)⟩

/-- C10: a connection that closes without sending any bytes gets no
reply token at all (a silent fourth case beyond `OK`/`ERROR`/`BUSY`),
enqueues nothing, and is closed with its admission slot released; and
on every exit path of the handler — including when `recv` or the reply
`sendall` raises — the `finally` block closes the connection and
releases the slot. -/
theorem handle_connection_silent_release (parse : List Nat → Option Msg)
    (recv : RecvOutcome) (sendOk : Bool) :
    (handle_connection parse (.ok []) sendOk =
      { replySent := none, enqueued := [], activityUpdated := false,
        closed := true, released := true, raised := false }) ∧
    (handle_connection parse recv sendOk).released = true ∧
    (handle_connection parse recv sendOk).closed = true := by
  refine ⟨by simp [handle_connection], ?_, ?_⟩ <;>
    cases recv <;> simp [handle_connection]

/-- Per-connection outcome as recorded by the accept loop
(`socket_listener`): whether the connection was rejected with `BUSY`
at the admission gate, whether it ended closed, and how many messages
it enqueued. -/
structure GateOutcome where
  busyReply : Bool
  closed : Bool
  enqueuedCount : Nat
deriving DecidableEq, Repr

/-- State of the admission gate: available semaphore permits
(initially `MAX_CONCURRENT_CONNECTIONS = 24`), currently running
connection handlers, and the trace of finished connection outcomes. -/
structure GState where
  avail : Nat
  active : Nat
  outcomes : List GateOutcome
deriving DecidableEq, Repr

/-- Initial admission-gate state. -/
def GState.init : GState := { avail := 24, active := 0, outcomes := [] }

/-- Steps of the accept loop and the connection handlers.  An accepted
connection first tries `connection_semaphore.acquire(blocking=False)`:
on success a handler thread is spawned (`admitConn`); on failure the
listener immediately sends `BUSY` and closes the connection — it is
never queued and no handler ever runs for it (`rejectBusy`).  A
running handler finishing records the effects computed by
`handle_connection` and releases its permit in its `finally` block
(`finish`). -/
inductive GStep : GState → GState → Prop
  | admitConn (s : GState) (h : 0 < s.avail) :
      GStep s { s with avail := s.avail - 1, active := s.active + 1 }
  | rejectBusy (s : GState) (h : s.avail = 0) :
      GStep s { s with outcomes := s.outcomes ++
        [{ busyReply := true, closed := true, enqueuedCount := 0 }] }
  | finish (s : GState) (parse : List Nat → Option Msg) (recv : RecvOutcome)
      (sendOk : Bool) (h : 0 < s.active) :
      GStep s { s with active := s.active - 1, avail := s.avail + 1,
                       outcomes := s.outcomes ++
                         [{ busyReply := false,
                            closed := (handle_connection parse recv sendOk).closed,
                            enqueuedCount :=
                              (handle_connection parse recv sendOk).enqueued.length }] }

/-- Reachability of admission-gate states. -/
inductive GReach : GState → Prop
  | init : GReach GState.init
  | step {s t : GState} : GReach s → GStep s t → GReach t

/-- Inductive invariant of the admission gate: the running handlers
and the free permits always partition the 24 slots, and every `BUSY`
outcome closed the connection without enqueueing. -/
def GateInv (s : GState) : Prop :=
  s.active + s.avail = 24 ∧
  ∀ o ∈ s.outcomes, o.busyReply = true →
    o.enqueuedCount = 0 ∧ o.closed = true

theorem gateInv_step {s t : GState} (hinv : GateInv s) (hst : GStep s t) :
    GateInv t := by
  obtain ⟨ih1, ih2⟩ := hinv
  cases hst with
  | admitConn h =>
      refine ⟨?_, ih2⟩
      show s.active + 1 + (s.avail - 1) = 24
      omega
  | rejectBusy h =>
      refine ⟨ih1, ?_⟩
      intro o ho hb
      rcases List.mem_append.1 ho with ho | ho
      · exact ih2 o ho hb
      · simp at ho
        simp [ho]
  | finish parse recv sendOk h =>
      refine ⟨?_, ?_⟩
      · show s.active - 1 + (s.avail + 1) = 24
        omega
      · intro o ho hb
        rcases List.mem_append.1 ho with ho | ho
        · exact ih2 o ho hb
        · simp at ho
          rw [ho] at hb
          cases hb

theorem gateInv_reach {s : GState} (h : GReach s) : GateInv s := by
  induction h with
  | init => exact ⟨rfl, by simp [GState.init]⟩
  | step _ hst ih => exact gateInv_step ih hst

/-- C4: in every reachable state of the admission gate at most
`MAX_CONCURRENT_CONNECTIONS = 24` connections are being handled
concurrently; a handler can only be spawned while fewer than 24 are
active (otherwise only the `BUSY`-reject step is enabled); and every
connection that got the `BUSY` reply was closed immediately and
enqueued nothing — rejected connections are never queued for later
handling. -/
theorem admission_gate_bound (s : GState) (h : GReach s) :
    s.active ≤ 24 ∧
    (∀ t, GStep s t → t.active = s.active + 1 → s.active < 24) ∧
    (∀ o ∈ s.outcomes, o.busyReply = true →
      o.enqueuedCount = 0 ∧ o.closed = true) := by
  obtain ⟨h1, h2⟩ := gateInv_reach h
  refine ⟨by omega, ?_, h2⟩
  intro t hst ht
  cases hst with
  | admitConn ha => omega
  | rejectBusy ha =>
      have ht' : s.active = s.active + 1 := ht
      omega
  | finish parse recv sendOk ha =>
      have ht' : s.active - 1 = s.active + 1 := ht
      omega

theorem admission_gate_bound_witness :
    GState.init.active ≤ 24 ∧
    (∀ t, GStep GState.init t → t.active = GState.init.active + 1 →
      GState.init.active < 24) ∧
    (∀ o ∈ GState.init.outcomes, o.busyReply = true →
      o.enqueuedCount = 0 ∧ o.closed = true) :=
  admission_gate_bound GState.init GReach.init

/-- Program counter of one client process inside `start_worker`:
`start` before `fcntl.flock`; `locked` holding the exclusive lock and
about to double-check `is_worker_running()`; `waitSock` after spawning
the daemon and writing the PID file, polling for the socket;
`waiting` in the `BlockingIOError` branch, polling for another
starter's daemon; `doneSpawned` returned the spawned worker handle;
`doneNone` returned `None`. -/
inductive SPC where
  | start
  | locked
  | waitSock
  | waiting
  | doneSpawned
  | doneNone
deriving DecidableEq, Repr

/-- Cross-process state of the startup protocol: the holder of the
exclusive `flock` on the lock file, whether a PID file naming a live
daemon exists, whether the daemon has bound its socket, counters of
daemon spawns and socket binds, and the per-process program counters.
In the cold-start scenario of the claim no daemon dies, so
`is_worker_running()` is `pidFile` (the PID it names stays live). -/
structure SState where
  lock : Option Nat
  pidFile : Bool
  socketBound : Bool
  spawnCount : Nat
  bindCount : Nat
  procs : List SPC
deriving DecidableEq, Repr

/-- Cold start: no lock holder, no PID file, no socket, `N` client
processes all about to call `start_worker`. -/
def SState.init (N : Nat) : SState :=
  { lock := none, pidFile := false, socketBound := false,
    spawnCount := 0, bindCount := 0, procs := List.replicate N .start }

/-- Steps of the startup protocol, mirroring `start_worker`:
non-blocking exclusive lock acquisition (succeeds only when free,
otherwise `BlockingIOError`), the double-checked
`is_worker_running()` under the lock, the spawn path (unlink stale
socket, spawn daemon, write PID — done while still holding the lock),
the bounded poll for the socket after which the lock is released and
the worker handle returned regardless, the spawned daemon binding the
socket once, and the busy path's bounded poll that returns `None`
whether the endpoint was observed or not. -/
inductive SStep : SState → SState → Prop
  | tryLock (s : SState) (i : Nat) (hi : s.procs[i]? = some .start)
      (hl : s.lock = none) :
      SStep s { s with lock := some i, procs := s.procs.set i .locked }
  | lockBusy (s : SState) (i j : Nat) (hi : s.procs[i]? = some .start)
      (hl : s.lock = some j) :
      SStep s { s with procs := s.procs.set i .waiting }
  | seesRunning (s : SState) (i : Nat) (hi : s.procs[i]? = some .locked)
      (hr : s.pidFile = true) :
      SStep s { s with lock := none, procs := s.procs.set i .doneNone }
  | spawns (s : SState) (i : Nat) (hi : s.procs[i]? = some .locked)
      (hr : s.pidFile = false) :
      SStep s { s with pidFile := true, socketBound := false,
                       spawnCount := s.spawnCount + 1,
                       procs := s.procs.set i .waitSock }
  | finishSpawn (s : SState) (i : Nat) (hi : s.procs[i]? = some .waitSock) :
      SStep s { s with lock := none, procs := s.procs.set i .doneSpawned }
  | daemonBinds (s : SState) (hd : s.pidFile = true) (hb : s.socketBound = false) :
      SStep s { s with socketBound := true, bindCount := s.bindCount + 1 }
  | waitEnds (s : SState) (i : Nat) (hi : s.procs[i]? = some .waiting) :
      SStep s { s with procs := s.procs.set i .doneNone }

/-- Reachability of startup-protocol states from an `N`-client cold
start. -/
inductive SReach (N : Nat) : SState → Prop
  | init : SReach N (SState.init N)
  | step {s t : SState} : SReach N s → SStep s t → SReach N t

/-- A process on the spawn path (it spawned a daemon). -/
def spawnish (pc : SPC) : Prop := pc = SPC.waitSock ∨ pc = SPC.doneSpawned

theorem set_lookup {l : List SPC} {i j : Nat} {a pc : SPC}
    (h : (l.set i a)[j]? = some pc) :
    (i = j ∧ pc = a) ∨ (i ≠ j ∧ l[j]? = some pc) := by
  by_cases hij : i = j
  · subst hij
    rw [List.getElem?_set_self'] at h
    cases hl : l[i]? with
    | none => rw [hl] at h; simp at h
    | some b =>
        rw [hl] at h
        simp at h
        exact Or.inl ⟨rfl, h.symm⟩
  · exact Or.inr ⟨hij, by rwa [List.getElem?_set_ne hij] at h⟩

theorem set_lookup_self {l : List SPC} {i : Nat} {a b : SPC}
    (h : l[i]? = some b) : (l.set i a)[i]? = some a := by
  rw [List.getElem?_set_self', h]; rfl

/-- Inductive invariant of the startup protocol: exactly one spawn has
happened iff the PID file exists; at most one socket bind iff the
socket is bound (and only after a spawn); a process in the locked
section or on the spawn path is the lock holder; before any spawn no
process is on the spawn path; at most one process is ever on the spawn
path; and before any spawn, either nobody has moved (lock free) or the
lock holder is still at its double-check. -/
def StartInv (N : Nat) (s : SState) : Prop :=
  s.procs.length = N
  ∧ s.spawnCount = (if s.pidFile then 1 else 0)
  ∧ s.bindCount = (if s.socketBound then 1 else 0)
  ∧ (s.socketBound = true → s.pidFile = true)
  ∧ (∀ (i : Nat) (pc : SPC), s.procs[i]? = some pc →
      pc = SPC.locked ∨ pc = SPC.waitSock → s.lock = some i)
  ∧ (s.pidFile = false →
      ∀ (i : Nat) (pc : SPC), s.procs[i]? = some pc → ¬ spawnish pc)
  ∧ (∀ (i j : Nat) (pci pcj : SPC), s.procs[i]? = some pci →
      s.procs[j]? = some pcj → spawnish pci → spawnish pcj → i = j)
  ∧ (s.pidFile = false →
      (s.lock = none → ∀ pc ∈ s.procs, pc = SPC.start) ∧
      (∀ i, s.lock = some i → s.procs[i]? = some SPC.locked))

theorem startInv_init (N : Nat) : StartInv N (SState.init N) := by
  refine ⟨by simp [SState.init], rfl, rfl, by simp [SState.init], ?_, ?_, ?_, ?_⟩
  · intro i pc hpc hor
    have hm := List.getElem?_mem hpc
    have := List.eq_of_mem_replicate hm
    rcases hor with h | h <;> rw [h] at this <;> cases this
  · intro _ i pc hpc
    have := List.eq_of_mem_replicate (List.getElem?_mem hpc)
    rw [this]
    rintro (h | h) <;> cases h
  · intro i j pci pcj hpi hpj hsi _
    have := List.eq_of_mem_replicate (List.getElem?_mem hpi)
    rw [this] at hsi
    rcases hsi with h | h <;> cases h
  · intro _
    refine ⟨fun _ pc hm => List.eq_of_mem_replicate hm, ?_⟩
    intro i hl
    cases hl

theorem startInv_step {N : Nat} {s t : SState} (hinv : StartInv N s)
    (hst : SStep s t) : StartInv N t := by
  obtain ⟨hLen, hSpawn, hBind, hSB, hHold, hNoSp, hUniq, hK⟩ := hinv
  cases hst with
  | tryLock i hi hl =>
      refine ⟨by simpa [List.length_set] using hLen, hSpawn, hBind, hSB, ?_, ?_, ?_, ?_⟩
      · intro j pc hpc hor
        rcases set_lookup hpc with ⟨hij, _⟩ | ⟨hij, hold⟩
        · exact congrArg some hij
        · have := hHold j pc hold hor
          rw [hl] at this
          cases this
      · intro hpf j pc hpc
        rcases set_lookup hpc with ⟨_, hpc'⟩ | ⟨_, hold⟩
        · rw [hpc']; rintro (h | h) <;> cases h
        · exact hNoSp hpf j pc hold
      · intro j k pcj pck hpj hpk hsj hsk
        rcases set_lookup hpj with ⟨_, hpc'⟩ | ⟨_, holdj⟩
        · rw [hpc'] at hsj; rcases hsj with h | h <;> cases h
        · rcases set_lookup hpk with ⟨_, hpc''⟩ | ⟨_, holdk⟩
          · rw [hpc''] at hsk; rcases hsk with h | h <;> cases h
          · exact hUniq j k pcj pck holdj holdk hsj hsk
      · intro hpf
        constructor
        · intro h
          cases h
        · intro k hk
          have hik : i = k := Option.some.inj hk
          rw [← hik]
          exact set_lookup_self hi
  | lockBusy i j hi hl =>
      refine ⟨by simpa [List.length_set] using hLen, hSpawn, hBind, hSB, ?_, ?_, ?_, ?_⟩
      · intro k pc hpc hor
        rcases set_lookup hpc with ⟨_, hpc'⟩ | ⟨_, hold⟩
        · rw [hpc'] at hor; rcases hor with h | h <;> cases h
        · exact hHold k pc hold hor
      · intro hpf k pc hpc
        rcases set_lookup hpc with ⟨_, hpc'⟩ | ⟨_, hold⟩
        · rw [hpc']; rintro (h | h) <;> cases h
        · exact hNoSp hpf k pc hold
      · intro k k' pck pck' hpk hpk' hsk hsk'
        rcases set_lookup hpk with ⟨_, hpc'⟩ | ⟨_, holdk⟩
        · rw [hpc'] at hsk; rcases hsk with h | h <;> cases h
        · rcases set_lookup hpk' with ⟨_, hpc''⟩ | ⟨_, holdk'⟩
          · rw [hpc''] at hsk'; rcases hsk' with h | h <;> cases h
          · exact hUniq k k' pck pck' holdk holdk' hsk hsk'
      · intro hpf
        constructor
        · intro h
          rw [hl] at h
          cases h
        intro k hk
        rw [hl] at hk
        have hjk : j = k := Option.some.inj hk
        have hj := (hK hpf).2 j hl
        have hij : i ≠ j := by
          intro hij
          rw [hij, hj] at hi
          cases hi
        rw [← hjk]
        show (s.procs.set i SPC.waiting)[j]? = some SPC.locked
        rw [List.getElem?_set_ne hij]
        exact hj
  | seesRunning i hi hr =>
      refine ⟨by simpa [List.length_set] using hLen, hSpawn, hBind, hSB, ?_, ?_, ?_, ?_⟩
      · intro k pc hpc hor
        rcases set_lookup hpc with ⟨_, hpc'⟩ | ⟨hik, hold⟩
        · rw [hpc'] at hor; rcases hor with h | h <;> cases h
        · have h1 := hHold k pc hold hor
          have h2 := hHold i _ hi (Or.inl rfl)
          rw [h1] at h2
          exact absurd (Option.some.inj h2).symm hik
      · intro hpf
        rw [hpf] at hr
        cases hr
      · intro k k' pck pck' hpk hpk' hsk hsk'
        rcases set_lookup hpk with ⟨_, hpc'⟩ | ⟨_, holdk⟩
        · rw [hpc'] at hsk; rcases hsk with h | h <;> cases h
        · rcases set_lookup hpk' with ⟨_, hpc''⟩ | ⟨_, holdk'⟩
          · rw [hpc''] at hsk'; rcases hsk' with h | h <;> cases h
          · exact hUniq k k' pck pck' holdk holdk' hsk hsk'
      · intro hpf
        rw [hpf] at hr
        cases hr
  | spawns i hi hr =>
      have hSpawn0 : s.spawnCount = 0 := by rw [hSpawn, hr]; rfl
      have hSBold : s.socketBound = false := by
        cases hsb : s.socketBound with
        | false => rfl
        | true => rw [hSB hsb] at hr; cases hr
      refine ⟨by simpa [List.length_set] using hLen, ?_, ?_, ?_, ?_, ?_, ?_, ?_⟩
      · show s.spawnCount + 1 = 1
        omega
      · show s.bindCount = (if False then 1 else 0)
        rw [hBind, hSBold]
        rfl
      · rintro ⟨⟩
      · intro k pc hpc hor
        rcases set_lookup hpc with ⟨hik, _⟩ | ⟨_, hold⟩
        · rw [← hik]
          exact hHold i _ hi (Or.inl rfl)
        · exact hHold k pc hold hor
      · rintro ⟨⟩
      · intro k k' pck pck' hpk hpk' hsk hsk'
        rcases set_lookup hpk with ⟨hik, _⟩ | ⟨_, holdk⟩
        · rcases set_lookup hpk' with ⟨hik', _⟩ | ⟨_, holdk'⟩
          · rw [← hik, ← hik']
          · exact absurd hsk' (hNoSp hr k' pck' holdk')
        · exact absurd hsk (hNoSp hr k pck holdk)
      · rintro ⟨⟩
  | finishSpawn i hi =>
      have hpfT : s.pidFile = true := by
        cases hpf : s.pidFile with
        | true => rfl
        | false => exact absurd (Or.inl rfl) (hNoSp hpf i _ hi)
      refine ⟨by simpa [List.length_set] using hLen, hSpawn, hBind, hSB, ?_, ?_, ?_, ?_⟩
      · intro k pc hpc hor
        rcases set_lookup hpc with ⟨_, hpc'⟩ | ⟨hik, hold⟩
        · rw [hpc'] at hor; rcases hor with h | h <;> cases h
        · have h1 := hHold k pc hold hor
          have h2 := hHold i _ hi (Or.inr rfl)
          rw [h1] at h2
          exact absurd (Option.some.inj h2).symm hik
      · intro hpf
        rw [hpf] at hpfT
        cases hpfT
      · intro k k' pck pck' hpk hpk' hsk hsk'
        rcases set_lookup hpk with ⟨hik, _⟩ | ⟨_, holdk⟩
        · rcases set_lookup hpk' with ⟨hik', _⟩ | ⟨_, holdk'⟩
          · rw [← hik, ← hik']
          · have := hUniq k' i pck' _ holdk' hi hsk' (Or.inl rfl)
            rw [← hik, this]
        · rcases set_lookup hpk' with ⟨hik', _⟩ | ⟨_, holdk'⟩
          · have := hUniq k i pck _ holdk hi hsk (Or.inl rfl)
            rw [← hik', this]
          · exact hUniq k k' pck pck' holdk holdk' hsk hsk'
      · intro hpf
        rw [hpf] at hpfT
        cases hpfT
  | daemonBinds hd hb =>
      refine ⟨hLen, hSpawn, ?_, fun _ => hd, hHold, ?_, hUniq, ?_⟩
      · show s.bindCount + 1 = (if True then 1 else 0)
        rw [hBind, hb]
        rfl
      · intro hpf
        rw [hpf] at hd
        cases hd
      · intro hpf
        rw [hpf] at hd
        cases hd
  | waitEnds i hi =>
      refine ⟨by simpa [List.length_set] using hLen, hSpawn, hBind, hSB, ?_, ?_, ?_, ?_⟩
      · intro k pc hpc hor
        rcases set_lookup hpc with ⟨_, hpc'⟩ | ⟨_, hold⟩
        · rw [hpc'] at hor; rcases hor with h | h <;> cases h
        · exact hHold k pc hold hor
      · intro hpf k pc hpc
        rcases set_lookup hpc with ⟨_, hpc'⟩ | ⟨_, hold⟩
        · rw [hpc']; rintro (h | h) <;> cases h
        · exact hNoSp hpf k pc hold
      · intro k k' pck pck' hpk hpk' hsk hsk'
        rcases set_lookup hpk with ⟨_, hpc'⟩ | ⟨_, holdk⟩
        · rw [hpc'] at hsk; rcases hsk with h | h <;> cases h
        · rcases set_lookup hpk' with ⟨_, hpc''⟩ | ⟨_, holdk'⟩
          · rw [hpc''] at hsk'; rcases hsk' with h | h <;> cases h
          · exact hUniq k k' pck pck' holdk holdk' hsk hsk'
      · intro hpf
        obtain ⟨hK1, hK2⟩ := hK hpf
        constructor
        · intro hl
          have := hK1 hl
          have hmem := this _ (List.getElem?_mem hi)
          cases hmem
        · intro k hk
          have hlk := hK2 k hk
          have hik : i ≠ k := by
            intro hik
            rw [hik, hlk] at hi
            cases hi
          rw [List.getElem?_set_ne hik]
          exact hlk

theorem startInv_reach {N : Nat} {s : SState} (h : SReach N s) : StartInv N s := by
  induction h with
  | init => exact startInv_init N
  | step _ hst ih => exact startInv_step ih hst

/-- C2: starting from an `N`-client cold start, every reachable state
of the startup protocol has at most one daemon spawn and at most one
socket bind; at most one process is ever on the spawn path; and once
every process has completed `start_worker` (with at least one client),
exactly one daemon was spawned — the `N − 1` others converged via the
failed non-blocking lock or the double-checked liveness test without
spawning. -/
theorem single_instance_start (N : Nat) (s : SState) (h : SReach N s) :
    s.spawnCount ≤ 1 ∧ s.bindCount ≤ 1 ∧
    (∀ (i j : Nat) (pci pcj : SPC), s.procs[i]? = some pci →
      s.procs[j]? = some pcj →
      (pci = SPC.waitSock ∨ pci = SPC.doneSpawned) →
      (pcj = SPC.waitSock ∨ pcj = SPC.doneSpawned) → i = j) ∧
    (0 < N → (∀ pc ∈ s.procs, pc = SPC.doneSpawned ∨ pc = SPC.doneNone) →
      s.spawnCount = 1) := by
  obtain ⟨hLen, hSpawn, hBind, hSB, hHold, hNoSp, hUniq, hK⟩ := startInv_reach h
  refine ⟨by rw [hSpawn]; split <;> omega, by rw [hBind]; split <;> omega,
    hUniq, ?_⟩
  intro hN hdone
  cases hpf : s.pidFile with
  | true => rw [hSpawn, hpf]; rfl
  | false =>
      exfalso
      obtain ⟨hK1, hK2⟩ := hK hpf
      cases hl : s.lock with
      | none =>
          have hall := hK1 hl
          have hlen0 : 0 < s.procs.length := by rw [hLen]; exact hN
          have hmem : s.procs[0] ∈ s.procs := List.getElem_mem hlen0
          have h1 := hall _ hmem
          have h2 := hdone _ hmem
          rw [h1] at h2
          rcases h2 with h2 | h2 <;> cases h2
      | some i =>
          have hlk := hK2 i hl
          have h2 := hdone _ (List.getElem?_mem hlk)
          rcases h2 with h2 | h2 <;> cases h2

/-- Final protocol state of a concrete two-client cold-start run:
client 0 locked, spawned and returned the handle; client 1 hit
`BlockingIOError`, waited, and returned `None`; the daemon bound its
socket once. -/
def sDone : SState :=
  { lock := none, pidFile := true, socketBound := true,
    spawnCount := 1, bindCount := 1, procs := [.doneSpawned, .doneNone] }

theorem sDone_reach : SReach 2 sDone := by
  have h1 := SReach.step (SReach.init : SReach 2 (SState.init 2))
    (SStep.tryLock _ 0 rfl rfl)
  have h2 := SReach.step h1 (SStep.lockBusy _ 1 0 rfl rfl)
  have h3 := SReach.step h2 (SStep.spawns _ 0 rfl rfl)
  have h4 := SReach.step h3 (SStep.daemonBinds _ rfl rfl)
  have h5 := SReach.step h4 (SStep.finishSpawn _ 0 rfl)
  exact SReach.step h5 (SStep.waitEnds _ 1 rfl)

theorem single_instance_start_witness :
    sDone.spawnCount ≤ 1 ∧ sDone.bindCount ≤ 1 ∧
    (∀ (i j : Nat) (pci pcj : SPC), sDone.procs[i]? = some pci →
      sDone.procs[j]? = some pcj →
      (pci = SPC.waitSock ∨ pci = SPC.doneSpawned) →
      (pcj = SPC.waitSock ∨ pcj = SPC.doneSpawned) → i = j) ∧
    (0 < 2 → (∀ pc ∈ sDone.procs, pc = SPC.doneSpawned ∨ pc = SPC.doneNone) →
      sDone.spawnCount = 1) :=
  single_instance_start 2 sDone sDone_reach

/-- Return value of `start_worker` as seen by its caller: the spawned
`Process` handle (truthy), or `None` (falsy).  Nothing in the modelled
paths raises. -/
inductive StartRet where
  | workerHandle
  | noneRet
deriving DecidableEq, Repr

/-- Observable outcome of one `start_worker` call: the return value,
whether it spawned a daemon, and whether its bounded wait observed the
IPC endpoint (socket file) before returning. -/
structure StartOutcome where
  ret : StartRet
  spawned : Bool
  sockFound : Bool
deriving DecidableEq, Repr

/-- Sequential embedding of `start_worker`.  `lockFree`: the
non-blocking `flock` succeeds; `runningAtCheck`: the double-checked
`is_worker_running()` under the lock; `spawnPoll i`: whether
`SOCKET_FILE.exists()` holds at poll `i` of the 50-iteration wait
after spawning; `busyPoll i`: whether `is_worker_running() and
SOCKET_FILE.exists()` holds at poll `i` of the `BlockingIOError`
branch.  On the spawn path the function waits boundedly for the
socket, then releases the lock and returns the worker handle whether
or not the socket appeared; on the busy path it returns `None` whether
or not the endpoint appeared; when the daemon is already running it
returns `None`. -/
def start_worker (lockFree runningAtCheck : Bool)
    (spawnPoll busyPoll : Nat → Bool) : StartOutcome :=
  if lockFree then
    if runningAtCheck then
      { ret := .noneRet, spawned := false, sockFound := true }
    else
      { ret := .workerHandle, spawned := true,
        sockFound := (List.range 50).any spawnPoll }
  else
    { ret := .noneRet, spawned := false,
      sockFound := (List.range 50).any busyPoll }

/-- C6 counterexample: a cold start whose daemon never creates the
socket file within the wait budget (all 50 polls fail).  `start_worker`
still returns the worker handle — a success indication, not `false`,
and nothing is raised — refuting the claim that the start operation
returns false or raises when the endpoint does not appear. -/
theorem start_worker_no_socket_cex :
    start_worker true false (fun _ => false) (fun _ => false) =
      { ret := StartRet.workerHandle, spawned := true, sockFound := false } ∧
    StartRet.workerHandle ≠ StartRet.noneRet := by
  constructor
  · decide
  · intro h
    cases h

/-- C6 amended: `start_worker`'s return value carries no information
about whether the IPC endpoint appeared within the wait budget — it is
determined solely by the lock outcome and the double-checked liveness
test (worker handle iff this call spawned), and no modelled path
raises.  Callers can detect an absent endpoint only through their
subsequent connection attempts. -/
theorem start_worker_ret_ignores_socket (lockFree runningAtCheck : Bool)
    (spawnPoll busyPoll spawnPoll' busyPoll' : Nat → Bool) :
    (start_worker lockFree runningAtCheck spawnPoll busyPoll).ret =
      (start_worker lockFree runningAtCheck spawnPoll' busyPoll').ret ∧
    ((start_worker lockFree runningAtCheck spawnPoll busyPoll).ret =
        StartRet.workerHandle ↔
      lockFree = true ∧ runningAtCheck = false) := by
  cases lockFree <;> cases runningAtCheck <;> simp [start_worker]

/-- Wire reply as read by the client (`sock.recv(10)`). -/
inductive Resp where
  | okTok
  | errTok
  | busyTok
  | otherTok
deriving DecidableEq, Repr

/-- Outcome of one connection attempt inside `send_to_queue`:
a received reply; `FileNotFoundError` (socket file missing);
`socket.timeout`; `ConnectionRefusedError` (socket file present but no
listener — caught only by the generic `except Exception` clause); or
any other exception (same generic clause). -/
inductive ConnAttempt where
  | success (resp : Resp)
  | fileNotFound
  | timeoutErr
  | connRefused
  | otherErr
deriving DecidableEq, Repr

/-- Observable effects of one `send_to_queue` call: whether the
pre-check `is_worker_running()` removed a stale PID file, how many
times `start_worker` was invoked, how many times `cleanup_worker`
(remove PID and socket files) was invoked, and the boolean result. -/
structure ClientOutcome where
  pidFileCleared : Bool
  starts : Nat
  cleanups : Nat
  result : Bool
deriving DecidableEq, Repr

/-- Embedding of `is_worker_running`: returns whether a live worker
was found and whether a stale PID file was removed.  A PID file whose
process is gone (or whose contents are invalid) is unlinked and the
check fails. -/
def is_worker_running (pidFileExists pidAlive : Bool) : Bool × Bool :=
  if pidFileExists then
    if pidAlive then (true, false) else (false, true)
  else (false, false)

/-- The retry loop of `send_to_queue` (`max_retries = 3`).  `i` is the
current attempt index, `fuel` the attempts remaining including this
one (`attempt < max_retries - 1` is `fuel ≠ 1`, i.e. the recursion is
allowed while more than one attempt remains).  Only `FileNotFoundError`
triggers `cleanup_worker()` and `start_worker()` before the retry;
`socket.timeout`, `ConnectionRefusedError` and all other exceptions
just back off and retry; a reply other than `OK`/`ERROR` silently
falls through to the next attempt. -/
def send_attempts (attempts : Nat → ConnAttempt) :
    Nat → Nat → ClientOutcome → ClientOutcome
  | _, 0, acc => { acc with result := false }
  | i, fuel + 1, acc =>
    match attempts i with
    | .success .okTok => { acc with result := true }
    | .success .errTok => { acc with result := false }
    | .success .busyTok => send_attempts attempts (i + 1) fuel acc
    | .success .otherTok => send_attempts attempts (i + 1) fuel acc
    | .fileNotFound =>
        if fuel = 0 then { acc with result := false }
        else send_attempts attempts (i + 1) fuel
          { acc with cleanups := acc.cleanups + 1, starts := acc.starts + 1 }
    | .timeoutErr =>
        if fuel = 0 then { acc with result := false }
        else send_attempts attempts (i + 1) fuel acc
    | .connRefused =>
        if fuel = 0 then { acc with result := false }
        else send_attempts attempts (i + 1) fuel acc
    | .otherErr =>
        if fuel = 0 then { acc with result := false }
        else send_attempts attempts (i + 1) fuel acc

/-- Embedding of `send_to_queue`: first `is_worker_running()` (which
may clear a stale PID file), starting the worker if it is not running,
then up to three connection attempts. -/
def send_to_queue (pidFileExists pidAlive : Bool)
    (attempts : Nat → ConnAttempt) : ClientOutcome :=
  let run := is_worker_running pidFileExists pidAlive
  send_attempts attempts 0 3
    { pidFileCleared := run.2, starts := if run.1 then 0 else 1,
      cleanups := 0, result := false }

/-- C5 counterexample: a submission against a worker whose PID check
passes but whose socket refuses every connection
(`ConnectionRefusedError` on all three attempts).  The client never
clears the stale WorkerState and never restarts the daemon — it only
backs off and retries, then fails — refuting the claim that every
connection-refused failure triggers clear-state-restart-retry. -/
theorem conn_refused_no_restart_cex :
    send_to_queue true true (fun _ => ConnAttempt.connRefused) =
      { pidFileCleared := false, starts := 0, cleanups := 0, result := false } := by
  decide

theorem send_attempts_mono (attempts : Nat → ConnAttempt) (fuel : Nat) :
    ∀ (i : Nat) (acc : ClientOutcome),
      acc.cleanups ≤ (send_attempts attempts i fuel acc).cleanups ∧
      acc.starts ≤ (send_attempts attempts i fuel acc).starts := by
  induction fuel with
  | zero => exact fun i acc => ⟨le_refl _, le_refl _⟩
  | succ n ih =>
      intro i acc
      show acc.cleanups ≤ (send_attempts attempts i (n + 1) acc).cleanups ∧ _
      simp only [send_attempts]
      cases h : attempts i with
      | success resp => cases resp <;> simp <;> exact ih (i + 1) acc
      | fileNotFound =>
          by_cases hn : n = 0
          · simp [hn]
          · simp only [hn, if_false]
            have := ih (i + 1)
              { acc with cleanups := acc.cleanups + 1, starts := acc.starts + 1 }
            constructor
            · exact le_trans (Nat.le_succ _) this.1
            · exact le_trans (Nat.le_succ _) this.2
      | timeoutErr =>
          by_cases hn : n = 0
          · simp [hn]
          · simp only [hn, if_false]
            exact ih (i + 1) acc
      | connRefused =>
          by_cases hn : n = 0
          · simp [hn]
          · simp only [hn, if_false]
            exact ih (i + 1) acc
      | otherErr =>
          by_cases hn : n = 0
          · simp [hn]
          · simp only [hn, if_false]
            exact ih (i + 1) acc

/-- C5 amended: only the endpoint-missing failure
(`FileNotFoundError`) makes the client clear the stale WorkerState
(`cleanup_worker`) and restart the daemon before retrying;
connection-refused (and other) failures are retried with backoff only,
without clearing state or restarting, and fail after the bounded
retries.  A daemon killed while its files remained is recovered
*before* connecting: the pre-submission `is_worker_running()` check
removes the stale PID file and `start_worker` is invoked (which
removes the stale socket), so the submission still succeeds. -/
theorem send_to_queue_recovery (attempts : Nat → ConnAttempt) :
    (attempts 0 = ConnAttempt.fileNotFound →
      1 ≤ (send_to_queue true true attempts).cleanups ∧
      1 ≤ (send_to_queue true true attempts).starts) ∧
    ((∀ i, attempts i = ConnAttempt.connRefused) →
      send_to_queue true true attempts =
        { pidFileCleared := false, starts := 0, cleanups := 0, result := false }) ∧
    (attempts 0 = ConnAttempt.success Resp.okTok →
      send_to_queue true false attempts =
        { pidFileCleared := true, starts := 1, cleanups := 0, result := true }) := by
  refine ⟨?_, ?_, ?_⟩
  · intro h
    have step : send_to_queue true true attempts =
        send_attempts attempts 1 2
          { pidFileCleared := false, starts := 1, cleanups := 1, result := false } := by
      show send_attempts attempts 0 3
          { pidFileCleared := false, starts := 0, cleanups := 0, result := false } = _
      simp only [send_attempts, h]
      norm_num
    rw [step]
    have hm := send_attempts_mono attempts 2 1
      { pidFileCleared := false, starts := 1, cleanups := 1, result := false }
    exact ⟨hm.1, hm.2⟩
  · intro h
    have e0 := h 0
    have e1 := h 1
    have e2 := h 2
    simp [send_to_queue, send_attempts, e0, e1, e2, is_worker_running]
  · intro h
    simp [send_to_queue, send_attempts, h, is_worker_running]

theorem send_to_queue_recovery_witness :
    (1 ≤ (send_to_queue true true (fun _ => ConnAttempt.fileNotFound)).cleanups ∧
      1 ≤ (send_to_queue true true (fun _ => ConnAttempt.fileNotFound)).starts) ∧
    send_to_queue true false (fun _ => ConnAttempt.success Resp.okTok) =
      { pidFileCleared := true, starts := 1, cleanups := 0, result := true } :=
  ⟨(send_to_queue_recovery (fun _ => ConnAttempt.fileNotFound)).1 rfl,
   (send_to_queue_recovery (fun _ => ConnAttempt.success Resp.okTok)).2.2 rfl⟩

end Speak
